import Mathlib

/-!
Verification of the event dispatch engine and key-press disambiguation state
machine of the streamdeck_sdk plugin runtime.

The Python source is shallowly embedded:
* `send` embeds `SendMixin.send` (mixins.py), the outbound sender;
* the association-list operations `lookupA`, `dictInsert`, `dictUpdate` embed
  Python `dict` lookup / item assignment / `dict.update` (insertion order is
  preserved, assignment to an existing key replaces in place);
* `init_actions` embeds `StreamDeck.__init_actions` (sdk.py);
* `route_plugin_event_in_action_handlers` embeds the broadcast routine of the
  same name (sdk.py);
* `handle_ws_message` embeds `StreamDeck.__handle_ws_message` (sdk.py);
* `on_did_receive_settings` embeds `StreamDeck._on_did_receive_settings`
  (sdk.py);
* `handleKeyDown` / `handleKeyUp` / `fireDue` embed the key timing engine of
  `ExtraKeyEventHandlersMixin` (mixins.py), with the `asyncio` timer race
  serialised: a pending `asyncio.wait_for` timeout is represented by its
  deadline and fires before any later event is processed.

Timestamps (Python `loop.time()` floats) are modelled as rationals.
-/

namespace StreamdeckSdk

/-- JSON values, as produced by `json.loads` / consumed by `json.dumps`. -/
inductive Json where
  | str (s : String)
  | num (n : Int)
  | bool (b : Bool)
  | null
  | arr (elems : List Json)
  | obj (fields : List (String × Json))

/-- Escape a character for a JSON string literal, as `json.dumps` does with
`ensure_ascii=False` (backslash, quote and the common control characters). -/
def escapeChar (c : Char) : String :=
  if c = '\"' then "\\\""
  else if c = '\\' then "\\\\"
  else if c = '\n' then "\\n"
  else if c = '\t' then "\\t"
  else if c = '\r' then "\\r"
  else String.singleton c

/-- Escape a whole string for a JSON string literal. -/
def escapeString (s : String) : String :=
  String.join (s.toList.map escapeChar)

/-- Serialisation of a JSON string literal. -/
def dumpStr (s : String) : String :=
  "\"" ++ escapeString s ++ "\""

mutual

/-- Model of Python `json.dumps(..., ensure_ascii=False)` on decoded values. -/
def json_dumps : Json → String
  | Json.str s => dumpStr s
  | Json.num n => toString n
  | Json.bool b => if b then "true" else "false"
  | Json.null => "null"
  | Json.arr elems => "[" ++ dumpsList elems ++ "]"
  | Json.obj fields => "\x7b" ++ dumpsFields fields ++ "\x7d"

/-- Comma-separated serialisation of array elements. -/
def dumpsList : List Json → String
  | [] => ""
  | [x] => json_dumps x
  | x :: y :: rest => json_dumps x ++ ", " ++ dumpsList (y :: rest)

/-- Comma-separated serialisation of object fields. -/
def dumpsFields : List (String × Json) → String
  | [] => ""
  | [(k, v)] => dumpStr k ++ ": " ++ json_dumps v
  | (k, v) :: y :: rest => dumpStr k ++ ": " ++ json_dumps v ++ ", " ++ dumpsFields (y :: rest)

end

/-- A pydantic outbound message object (`events_sent_objs`): every outbound
message carries an `event` discriminator plus its remaining fields;
`model_dump_json` serialises it by pydantic's own rules. -/
structure OutModel where
  event : String
  fields : List (String × Json)

/-- Model of `pydantic.BaseModel.model_dump_json` on an outbound message. -/
def model_dump_json (m : OutModel) : String :=
  json_dumps (Json.obj (("event", Json.str m.event) :: m.fields))

/-- A Python runtime value as it may be passed to `SendMixin.send`: the three
supported classes (`dict`, `str`, `pydantic.BaseModel`) and representatives of
every other class, which the `match` in `send` rejects. -/
inductive PyValue where
  | pyDict (d : List (String × Json))
  | pyStr (s : String)
  | pyModel (m : OutModel)
  | pyInt (n : Int)
  | pyBool (b : Bool)
  | pyNone
  | pyList (elems : List Json)

/-- Whether `SendMixin.send` accepts this value: exactly the `dict`, `str` and
`pydantic.BaseModel` cases of its `match` statement. -/
def isSupported : PyValue → Bool
  | PyValue.pyDict _ => true
  | PyValue.pyStr _ => true
  | PyValue.pyModel _ => true
  | _ => false

/-- Outcome of one call to `SendMixin.send`: whether `logger.error` ran, and
what string (if any) was written to the websocket. -/
structure SendResult where
  errored : Bool
  written : Option String
deriving DecidableEq

/-- Embedding of `SendMixin.send` (mixins.py lines 20-42): a dict is
`json.dumps`-serialised, a string is sent verbatim, a pydantic model is
serialised via `model_dump_json`, anything else is logged as an error and
dropped (the function returns before `ws.send`, raising nothing). -/
def send : PyValue → SendResult
  | PyValue.pyDict d => { errored := false, written := some (json_dumps (Json.obj d)) }
  | PyValue.pyStr s => { errored := false, written := some s }
  | PyValue.pyModel m => { errored := false, written := some (model_dump_json m) }
  | _ => { errored := true, written := none }

/-- Python `dict` lookup on an insertion-ordered association list
(`d.get(k)` / `d[k]`). -/
def lookupA {α : Type} (m : List (String × α)) (k : String) : Option α :=
  match m with
  | [] => none
  | (k2, v) :: rest => if k2 = k then some v else lookupA rest k

/-- Python `dict` item assignment `d[k] = v`: replaces the value in place when
the key is present (keeping its position), otherwise appends at the end. -/
def dictInsert {α : Type} (m : List (String × α)) (k : String) (v : α) :
    List (String × α) :=
  match m with
  | [] => [(k, v)]
  | (k2, v2) :: rest =>
      if k2 = k then (k2, v) :: rest else (k2, v2) :: dictInsert rest k v

/-- Python `dict.update`: assign every key of `new` into `old`, in order
(last write wins per key). -/
def dictUpdate {α : Type} (old new : List (String × α)) : List (String × α) :=
  match new with
  | [] => old
  | (k, v) :: rest => dictUpdate (dictInsert old k v) rest

/-- The value the last write to key `k` in the pushed mapping `new` carries
(`none` when `k` is never written). -/
def lastWrite {α : Type} (new : List (String × α)) (k : String) : Option α :=
  match new with
  | [] => none
  | (k2, v) :: rest =>
      match lastWrite rest k with
      | some w => some w
      | none => if k2 = k then some v else none

/-- A registered `Action` object as `StreamDeck.__init_actions` sees it: its
`UUID` class attribute (`none` models an action class that never set one, so
`action.UUID` raises `AttributeError`), an id distinguishing the handler
object, the method names `getattr` finds on it, and its per-context
`instance_settings` cache (a `defaultdict(dict)`). -/
structure ActionObj where
  uuid : Option String
  hid : Nat
  methods : List String
  settings : List (String × List (String × Json))

/-- Embedding of `StreamDeck.__init_actions` (sdk.py lines 122-142) starting
from registry `reg`: each action is registered by
`self.registered_actions[action_uuid] = action`; an action without a `UUID`
attribute raises `AttributeError` (returned as the second component, with the
registrations made so far kept). No duplicate check is performed. -/
def init_actions (reg : List (String × ActionObj)) :
    List ActionObj → List (String × ActionObj) × Option String
  | [] => (reg, none)
  | a :: rest =>
      match a.uuid with
      | none => (reg, some "must have attribute UUID")
      | some u => init_actions (dictInsert reg u a) rest

/-- Embedding of `StreamDeck.route_plugin_event_in_action_handlers` (sdk.py
lines 222-238): iterate `registered_actions.values()` in insertion order; if
`getattr(action_obj, event_routing.handler_name)` raises `AttributeError`
(method absent) the routine logs an error and returns, ending the whole loop;
otherwise the bound handler is scheduled with `schedule_task_soon` — handlers
only run after this loop finished, so their outcomes cannot influence it. The
result lists the `hid`s of the actions whose handler was scheduled, in order. -/
def route_plugin_event_in_action_handlers (reg : List (String × ActionObj))
    (handler_name : String) : List Nat :=
  match reg with
  | [] => []
  | (_, a) :: rest =>
      if a.methods.contains handler_name then
        a.hid :: route_plugin_event_in_action_handlers rest handler_name
      else []

/-- Dispatch scope of a routing-table entry, as `StreamDeck.__handle_ws_message`
distinguishes them: `EventRoutingObjTypes.ACTION` (targeted action) and
`EventRoutingObjTypes.PLUGIN` (broadcast to all actions); `other` stands for
any further member, for which only the plugin-level dispatch runs. The
`event_routings` module is not among the provided sources; this type is
modelled from its use in sdk.py. -/
inductive RoutingType where
  | action
  | plugin
  | other
deriving DecidableEq

/-- A routing-table entry (`event_routings.EventRoutingObj`) as consumed by
sdk.py: its dispatch scope and the handler method name looked up with
`getattr`. Payload validation by `obj_type.model_validate` is modelled on the
message side (`InMessage.valid`). -/
structure EventRoutingObj where
  rtype : RoutingType
  handler_name : String
deriving DecidableEq

/-- A handler invocation scheduled by `__handle_ws_message`. -/
inductive ScheduledTask where
  | pluginRoute (handler_name : String)
  | actionRoute (handler_name : String)
  | broadcastRoute (handler_name : String)
deriving DecidableEq

/-- A decoded inbound message: its `event` name and whether its payload
validates against the route's `obj_type` (pydantic `model_validate`). -/
structure InMessage where
  event : String
  valid : Bool
deriving DecidableEq

/-- Outcome of `__handle_ws_message` on one message: whether `logger.warning`
ran (unknown event name), whether an exception ended the call (it is caught by
the `log_errors_async` wrapper, so it never reaches the read loop), and the
handler invocations scheduled. -/
structure HandleResult where
  warned : Bool
  errored : Bool
  scheduled : List ScheduledTask
deriving DecidableEq

/-- Embedding of `StreamDeck.__handle_ws_message` (sdk.py lines 144-174) over
an arbitrary routing table: an event name with no entry
(`EVENT_ROUTING_MAP.get(event)` is `None`) logs a warning and returns —
nothing scheduled, nothing raised; a payload validation failure raises inside
the decorated method and is caught by `log_errors_async` (nothing scheduled);
otherwise the plugin-level route is scheduled, plus the targeted-action route
for scope `ACTION` or the broadcast route for scope `PLUGIN`. -/
def handle_ws_message (table : List (String × EventRoutingObj)) (msg : InMessage) :
    HandleResult :=
  match lookupA table msg.event with
  | none => { warned := true, errored := false, scheduled := [] }
  | some r =>
      if msg.valid then
        { warned := false, errored := false,
          scheduled :=
            ScheduledTask.pluginRoute r.handler_name ::
              (match r.rtype with
               | RoutingType.action => [ScheduledTask.actionRoute r.handler_name]
               | RoutingType.plugin => [ScheduledTask.broadcastRoute r.handler_name]
               | RoutingType.other => []) }
      else { warned := false, errored := true, scheduled := [] }

/-- The read loop of `__start_ws_connection` (sdk.py lines 252-254): messages
are handled one by one in arrival order; each outcome is independent of the
others. -/
def handle_messages (table : List (String × EventRoutingObj))
    (msgs : List InMessage) : List HandleResult :=
  msgs.map (handle_ws_message table)

/-- Embedding of `StreamDeck._on_did_receive_settings` (sdk.py lines 281-287):
`self.instance_settings[context].update(obj.payload.settings)` (a
`defaultdict(dict)`, so a missing context starts from the empty dict), then
`self.registered_actions[action].instance_settings[context].update(...)` — an
unguarded `dict` lookup, so an unregistered `action` raises `KeyError` (second
component `none`) after the plugin-level cache was already updated. -/
def on_did_receive_settings (ps : List (String × List (String × Json)))
    (reg : List (String × ActionObj)) (action context : String)
    (settings : List (String × Json)) :
    (List (String × List (String × Json))) × Option (List (String × ActionObj)) :=
  let merged := dictUpdate ((lookupA ps context).getD []) settings
  let ps2 := dictInsert ps context merged
  match lookupA reg action with
  | none => (ps2, none)
  | some a =>
      let amerged := dictUpdate ((lookupA a.settings context).getD []) settings
      let a2 : ActionObj :=
        { a with settings := dictInsert a.settings context amerged }
      (ps2, some (dictInsert reg action a2))

/-- Per-handler timing configuration: the `long_press_delay` and
`double_press_delay` class attributes of `ExtraKeyEventHandlersMixin`
(defaults 0.8 and 0.5 seconds); timestamps are modelled as rationals. -/
structure KeyCfg where
  long_press_delay : ℚ
  double_press_delay : ℚ
deriving DecidableEq

/-- The `ExtraKeyEventHandlersMixin` timing state for one context:
`down_entry` — the context has an entry in `last_key_down_event` (a future);
`pending` — that future is not yet done and an `asyncio.wait_for` is watching
it: the watch's deadline (key-down time plus `long_press_delay`) and the id of
the key-down payload object; `last_key_up_time` and `should_skip_key_up` —
the entries of the dicts of the same names (`.get` defaults: no entry means
`None` resp. `False`). -/
structure KeyTimingState where
  down_entry : Bool
  pending : Option (ℚ × Nat)
  last_key_up_time : Option ℚ
  should_skip_key_up : Bool
deriving DecidableEq

/-- A fresh context: no entry in any of the timing dicts. -/
def initState : KeyTimingState :=
  { down_entry := false, pending := none, last_key_up_time := none,
    should_skip_key_up := false }

/-- A derived event handed to a handler: `keyDown`, `keyUp`, `longPress`,
`doublePress` are invocations of `on_key_down`, `on_key_up`,
`on_key_long_press`, `on_key_double_press`, carrying the id of the payload
object passed to the handler. -/
inductive DerivedEvent where
  | keyDown (payload : Nat)
  | keyUp (payload : Nat)
  | longPress (payload : Nat)
  | doublePress (payload : Nat)
deriving DecidableEq

/-- The long-press timer: once a pending watch's deadline has passed, the
`asyncio.wait_for` inside `_on_key_down` raises `TimeoutError`, which sets
`should_skip_key_up[context] = True` and schedules
`on_key_long_press(obj=obj)` with the original key-down payload (mixins.py
lines 389-395); the awaited future is cancelled, so `done()` becomes true. -/
def fireDue (s : KeyTimingState) (now : ℚ) : KeyTimingState × List DerivedEvent :=
  match s.pending with
  | none => (s, [])
  | some pr =>
      if pr.1 ≤ now then
        ({ s with pending := none, should_skip_key_up := true },
         [DerivedEvent.longPress pr.2])
      else (s, [])

/-- Embedding of `ExtraKeyEventHandlersMixin._on_key_down` (mixins.py lines
372-395) at time `t` with payload-object id `p`: when `long_press_delay > 0`,
a fresh future is stored in `last_key_down_event[context]` and the
`asyncio.wait_for` watch starts; otherwise the method does nothing — this
override neither calls `on_key_down` nor records any state, so no derived
event is ever emitted here. -/
def handleKeyDown (cfg : KeyCfg) (s : KeyTimingState) (t : ℚ) (p : Nat) :
    KeyTimingState :=
  if 0 < cfg.long_press_delay then
    { s with down_entry := true, pending := some (t + cfg.long_press_delay, p) }
  else s

/-- Embedding of `ExtraKeyEventHandlersMixin._on_key_up` (mixins.py lines
420-456) at time `t` with key-up payload-object id `p`. `none` models the
`KeyError` raised by the unguarded `self.last_key_down_event[context]` when
the context has no entry: the method mutates nothing and no handler runs.
Otherwise: an undone future gets `set_result(True)`, cancelling the long-press
watch; the suppression flag is read (`.get(context, False)`); the double-press
window is checked against `last_key_up_time.get(context)`; the flag is reset;
a suppressed key-up emits nothing, otherwise `last_key_up_time[context]` is
set to `t` and `on_key_double_press` or `on_key_up` is scheduled. -/
def handleKeyUp (cfg : KeyCfg) (s : KeyTimingState) (t : ℚ) (p : Nat) :
    Option (KeyTimingState × List DerivedEvent) :=
  if s.down_entry then
    let is_double : Bool :=
      match s.last_key_up_time with
      | some t0 => decide (t - t0 ≤ cfg.double_press_delay)
      | none => false
    let s2 : KeyTimingState :=
      { s with pending := none, should_skip_key_up := false }
    if s.should_skip_key_up then some (s2, [])
    else
      let s3 : KeyTimingState := { s2 with last_key_up_time := some t }
      if is_double then some (s3, [DerivedEvent.doublePress p])
      else some (s3, [DerivedEvent.keyUp p])
  else none

/-- A raw protocol signal for one context: key-down or key-up, with its
`loop.time()` timestamp and the id of its payload object. -/
inductive RawEvent where
  | down (t : ℚ) (p : Nat)
  | up (t : ℚ) (p : Nat)
deriving DecidableEq

/-- Timestamp of a raw event. -/
def rawTime : RawEvent → ℚ
  | RawEvent.down t _ => t
  | RawEvent.up t _ => t

/-- One step of the serialised timing engine: a pending long-press watch whose
deadline has passed fires before the newly arrived event is processed (the
event loop runs the expired timer first), then the event itself is handled.
The `KeyError` key-up leaves the state unchanged and emits nothing: the
exception ends only that handler task. -/
def step (cfg : KeyCfg) (s : KeyTimingState) (e : RawEvent) :
    KeyTimingState × List DerivedEvent :=
  let fired := fireDue s (rawTime e)
  match e with
  | RawEvent.down t p => (handleKeyDown cfg fired.1 t p, fired.2)
  | RawEvent.up t p =>
      match handleKeyUp cfg fired.1 t p with
      | some r => (r.1, fired.2 ++ r.2)
      | none => (fired.1, fired.2)

/-- Run the timing engine over a trace of raw events for one context,
collecting every derived event in order. -/
def runRaw (cfg : KeyCfg) (s : KeyTimingState) :
    List RawEvent → KeyTimingState × List DerivedEvent
  | [] => (s, [])
  | e :: rest =>
      let r1 := step cfg s e
      let r2 := runRaw cfg r1.1 rest
      (r2.1, r1.2 ++ r2.2)


theorem lookupA_dictInsert_self {α : Type} (m : List (String × α)) (k : String) (v : α) :
    lookupA (dictInsert m k v) k = some v := by
  induction m with
  | nil => simp [dictInsert, lookupA]
  | cons hd tl ih =>
      obtain ⟨k2, v2⟩ := hd
      by_cases h : k2 = k
      · simp [dictInsert, lookupA, h]
      · simp [dictInsert, lookupA, h, ih]

theorem lookupA_dictInsert_ne {α : Type} (m : List (String × α)) (k k2 : String) (v : α)
    (h : k2 ≠ k) : lookupA (dictInsert m k2 v) k = lookupA m k := by
  induction m with
  | nil => simp [dictInsert, lookupA, h]
  | cons hd tl ih =>
      obtain ⟨k3, v3⟩ := hd
      by_cases h3 : k3 = k2
      · subst h3
        simp [dictInsert, lookupA, h]
      · simp [dictInsert, lookupA, h3, ih]

theorem lookupA_dictUpdate_not_mem {α : Type} (new : List (String × α)) (old : List (String × α))
    (k : String) (h : k ∉ new.map Prod.fst) :
    lookupA (dictUpdate old new) k = lookupA old k := by
  induction new generalizing old with
  | nil => simp [dictUpdate]
  | cons hd tl ih =>
      obtain ⟨k2, v2⟩ := hd
      simp only [List.map_cons, List.mem_cons, not_or] at h
      obtain ⟨hne, htl⟩ := h
      rw [dictUpdate, ih (dictInsert old k2 v2) htl,
        lookupA_dictInsert_ne old k k2 v2 (fun he => hne he.symm)]

theorem lastWrite_eq_none {α : Type} (new : List (String × α)) (k : String)
    (h : k ∉ new.map Prod.fst) : lastWrite new k = none := by
  induction new with
  | nil => simp [lastWrite]
  | cons hd tl ih =>
      obtain ⟨k2, v2⟩ := hd
      simp only [List.map_cons, List.mem_cons, not_or] at h
      obtain ⟨hne, htl⟩ := h
      have hne2 : ¬k2 = k := fun he => hne he.symm
      rw [lastWrite, ih htl]
      simp [hne2]

theorem lastWrite_isSome {α : Type} (new : List (String × α)) (k : String)
    (h : k ∈ new.map Prod.fst) : (lastWrite new k).isSome := by
  induction new with
  | nil => simp at h
  | cons hd tl ih =>
      obtain ⟨k2, v2⟩ := hd
      rw [lastWrite]
      by_cases htl : k ∈ tl.map Prod.fst
      · have := ih htl
        cases he : lastWrite tl k with
        | none => rw [he] at this; simp at this
        | some w => simp
      · simp only [List.map_cons, List.mem_cons] at h
        have hk : k2 = k := by
          rcases h with h | h
          · exact h.symm
          · exact absurd h htl
        rw [lastWrite_eq_none tl k htl]
        simp [hk]

/-- The key merging lemma: after `old.update(new)`, every key written by `new`
holds the value of its last write in `new`, independently of `old`. -/
theorem lookupA_dictUpdate_mem {α : Type} (new : List (String × α)) (old : List (String × α))
    (k : String) (h : k ∈ new.map Prod.fst) :
    lookupA (dictUpdate old new) k = lastWrite new k := by
  induction new generalizing old with
  | nil => simp at h
  | cons hd tl ih =>
      obtain ⟨k2, v2⟩ := hd
      rw [dictUpdate, lastWrite]
      by_cases htl : k ∈ tl.map Prod.fst
      · have hsome := lastWrite_isSome tl k htl
        cases he : lastWrite tl k with
        | none => rw [he] at hsome; simp at hsome
        | some w => rw [ih (dictInsert old k2 v2) htl, he]
      · simp only [List.map_cons, List.mem_cons] at h
        have hk : k2 = k := by
          rcases h with h | h
          · exact h.symm
          · exact absurd h htl
        rw [lookupA_dictUpdate_not_mem tl (dictInsert old k2 v2) k htl,
          lastWrite_eq_none tl k htl, hk, lookupA_dictInsert_self]
        simp

/-- C7: for every inbound event whose event name has no entry in the routing
table, dispatch logs a warning and returns without raising and without
invoking any handler; the event is dropped and subsequent events continue to
be served (each later message is handled exactly as it would be alone). -/
theorem unknown_event_dropped (table : List (String × EventRoutingObj))
    (msg : InMessage) (rest : List InMessage)
    (h : lookupA table msg.event = none) :
    handle_ws_message table msg =
      { warned := true, errored := false, scheduled := [] } ∧
    handle_messages table (msg :: rest) =
      { warned := true, errored := false, scheduled := [] } ::
        handle_messages table rest := by
  have h1 : handle_ws_message table msg =
      { warned := true, errored := false, scheduled := [] } := by
    rw [handle_ws_message, h]
  exact ⟨h1, by rw [handle_messages, List.map_cons, h1]; rfl⟩

/-- Witness for `unknown_event_dropped`: the empty table and the event name
from the spec scenario. -/
theorem unknown_event_dropped_witness :
    handle_ws_message [] { event := "unknownThing", valid := true } =
      { warned := true, errored := false, scheduled := [] } ∧
    handle_messages [] [{ event := "unknownThing", valid := true }] =
      [{ warned := true, errored := false, scheduled := [] }] :=
  unknown_event_dropped [] { event := "unknownThing", valid := true } [] rfl

/-- C9: the outbound sender serialises a mapping to a JSON string before
transmission, sends an already-serialised string verbatim, serialises a
schema-validated message object via its own rules, and for a value of any
other type logs an error and drops it: nothing is written and nothing is
raised to the caller (`send` returns a result for every input). -/
theorem send_classifies :
    (∀ d, send (PyValue.pyDict d) =
      { errored := false, written := some (json_dumps (Json.obj d)) }) ∧
    (∀ s, send (PyValue.pyStr s) = { errored := false, written := some s }) ∧
    (∀ m, send (PyValue.pyModel m) =
      { errored := false, written := some (model_dump_json m) }) ∧
    (∀ v, isSupported v = false → send v = { errored := true, written := none }) := by
  refine ⟨fun d => rfl, fun s => rfl, fun m => rfl, fun v hv => ?_⟩
  cases v with
  | pyDict d => exact absurd hv (by simp [isSupported])
  | pyStr s => exact absurd hv (by simp [isSupported])
  | pyModel m => exact absurd hv (by simp [isSupported])
  | pyInt n => rfl
  | pyBool b => rfl
  | pyNone => rfl
  | pyList elems => rfl

/-- Witness for `send_classifies`: a Python `int` is not a supported send
payload and is dropped with an error, nothing written. -/
theorem send_classifies_witness :
    send (PyValue.pyInt 3) = { errored := true, written := none } :=
  send_classifies.2.2.2 (PyValue.pyInt 3) rfl

/-- Two action handler objects declaring the same `UUID`
(`"com.example.a"`), distinguishable by their identity. -/
def dupA : ActionObj :=
  { uuid := some "com.example.a", hid := 1, methods := [], settings := [] }

/-- See `dupA`. -/
def dupB : ActionObj :=
  { uuid := some "com.example.a", hid := 2, methods := [], settings := [] }

/-- C2 counterexample: registering `"com.example.a"` twice does not fail —
`__init_actions` performs no duplicate check — and the registry is not
unchanged: lookup afterwards returns the second handler object, not the
first. -/
theorem duplicate_registration_no_error :
    ¬ ((init_actions [] [dupA, dupB]).2.isSome = true ∧
       lookupA (init_actions [] [dupA, dupB]).1 "com.example.a" = some dupA) := by
  intro h
  have h1 := h.1
  rw [show (init_actions [] [dupA, dupB]).2 = none from rfl] at h1
  simp at h1

/-- C2 amended: registering an actionId that is already present raises no
error and silently overwrites the entry: the attempt reports no failure and
lookup afterwards returns the newly registered handler (the previous one is
gone). -/
theorem duplicate_registration_overwrites (reg : List (String × ActionObj))
    (prev a : ActionObj) (u : String)
    (hu : a.uuid = some u) (_hprev : lookupA reg u = some prev) :
    (init_actions reg [a]).2 = none ∧
    lookupA (init_actions reg [a]).1 u = some a := by
  have hrun : init_actions reg [a] = (dictInsert reg u a, none) := by
    simp [init_actions, hu]
  rw [hrun]
  exact ⟨rfl, lookupA_dictInsert_self reg u a⟩

/-- Witness for `duplicate_registration_overwrites` at the registry already
holding `"com.example.a"`. -/
theorem duplicate_registration_overwrites_witness :
    (init_actions [("com.example.a", dupA)] [dupB]).2 = none ∧
    lookupA (init_actions [("com.example.a", dupA)] [dupB]).1 "com.example.a" =
      some dupB :=
  duplicate_registration_overwrites [("com.example.a", dupA)] dupA dupB
    "com.example.a" rfl rfl

/-- A registered action lacking the broadcast handler method. -/
def actNoMethod : ActionObj :=
  { uuid := some "com.example.first", hid := 1, methods := [], settings := [] }

/-- A registered action that defines the broadcast handler method. -/
def actWithMethod : ActionObj :=
  { uuid := some "com.example.second", hid := 2,
    methods := ["_on_system_did_wake_up"], settings := [] }

/-- C3 counterexample: with two registered actions where the first lacks the
handler method, the broadcast loop logs and returns at the first action, so
the second action never has the event delivered — contradicting the claim
that one action's missing handler does not prevent delivery to the rest. -/
theorem broadcast_abort_on_missing_handler :
    ¬ (2 ∈ route_plugin_event_in_action_handlers
        [("com.example.first", actNoMethod), ("com.example.second", actWithMethod)]
        "_on_system_did_wake_up") := by
  intro h
  rw [show route_plugin_event_in_action_handlers
      [("com.example.first", actNoMethod), ("com.example.second", actWithMethod)]
      "_on_system_did_wake_up" = [] from rfl] at h
  simp at h

/-- C3 amended: a broadcast-scope event is delivered in registration order to
every registered action up to, but not including, the first action whose
handler method is absent (`getattr` failing makes the routine log and return,
skipping the remaining actions); in particular, when every registered action
defines the method, all of them have the handler scheduled, and since
invocations are only scheduled here and each runs later as its own supervised
task, one handler's execution failure cannot prevent the others' delivery. -/
theorem broadcast_delivery_order (reg : List (String × ActionObj)) (hname : String) :
    route_plugin_event_in_action_handlers reg hname =
      (reg.takeWhile (fun pr => pr.2.methods.contains hname)).map
        (fun pr => pr.2.hid) := by
  induction reg with
  | nil => rfl
  | cons hd tl ih =>
      obtain ⟨u, a⟩ := hd
      by_cases h : hname ∈ a.methods
      · simp [route_plugin_event_in_action_handlers, List.takeWhile_cons, h, ih]
      · simp [route_plugin_event_in_action_handlers, List.takeWhile_cons, h]

/-- C10: processing a key-up for a context that never recorded timing state
performs the unguarded dictionary lookup `self.last_key_down_event[context]`
and raises `KeyError`: the key-up produces no derived event at all (no
ordinary key-up either). In particular, with `long_press_delay ≤ 0` a
key-down records nothing, so the key-up after it still raises. -/
theorem keyup_without_state_raises (cfg : KeyCfg) (s : KeyTimingState)
    (t : ℚ) (p : Nat) (h : s.down_entry = false) :
    handleKeyUp cfg s t p = none ∧
    (cfg.long_press_delay ≤ 0 →
      ∀ t0 p0 t1 p1, handleKeyUp cfg (handleKeyDown cfg s t0 p0) t1 p1 = none) := by
  constructor
  · simp [handleKeyUp, h]
  · intro hle t0 p0 t1 p1
    have hnot : ¬ (0 < cfg.long_press_delay) := not_lt.mpr hle
    simp [handleKeyDown, hnot, handleKeyUp, h]

/-- Witness for `keyup_without_state_raises`: a fresh context with the watch
unconfigured. -/
theorem keyup_without_state_raises_witness :
    handleKeyUp { long_press_delay := 0, double_press_delay := 1 } initState 5 3 =
      none ∧
    ((0 : ℚ) ≤ 0 →
      ∀ t0 p0 t1 p1,
        handleKeyUp { long_press_delay := 0, double_press_delay := 1 }
          (handleKeyDown { long_press_delay := 0, double_press_delay := 1 }
            initState t0 p0) t1 p1 = none) :=
  keyup_without_state_raises
    { long_press_delay := 0, double_press_delay := 1 } initState 5 3 rfl

/-- C4 counterexample: with `long_press_delay = 0` a raw key-down is not
forwarded as an ordinary key-down — no `on_key_down` invocation (indeed no
derived event at all) is produced for it. -/
theorem keydown_not_forwarded :
    ¬ (DerivedEvent.keyDown 5 ∈
        (step { long_press_delay := 0, double_press_delay := 1 } initState
          (RawEvent.down 0 5)).2) := by
  intro h
  rw [show (step { long_press_delay := 0, double_press_delay := 1 } initState
      (RawEvent.down 0 5)).2 = [] from rfl] at h
  simp at h

/-- C4 amended: when the long-press watch is not configured
(`long_press_delay ≤ 0`), a raw key-down is dropped entirely: the override's
guarded body is skipped, so the key-down handler is not invoked, no derived
event is produced, and no timing state is recorded. -/
theorem keydown_unconfigured_dropped (cfg : KeyCfg) (s : KeyTimingState)
    (t : ℚ) (p : Nat) (hle : cfg.long_press_delay ≤ 0) (hp : s.pending = none) :
    step cfg s (RawEvent.down t p) = (s, []) := by
  have hnot : ¬ (0 < cfg.long_press_delay) := not_lt.mpr hle
  simp [step, fireDue, rawTime, hp, handleKeyDown, hnot]

/-- Witness for `keydown_unconfigured_dropped` at a fresh context. -/
theorem keydown_unconfigured_dropped_witness :
    step { long_press_delay := 0, double_press_delay := 1 } initState
      (RawEvent.down 0 5) = (initState, []) :=
  keydown_unconfigured_dropped { long_press_delay := 0, double_press_delay := 1 }
    initState 0 5 (by norm_num) rfl

/-- C5: with the long-press watch configured (`long_press_delay > 0`), a
key-down at `t0` with no key-up until `t1` at least `long_press_delay` later
yields exactly one derived event: a long-press synthesized from the original
key-down payload `p`; the key-up at `t1` is fully suppressed and contributes
zero derived events (neither key-up nor double-press). -/
theorem long_press_then_suppressed (cfg : KeyCfg) (s : KeyTimingState)
    (t0 t1 : ℚ) (p q : Nat)
    (hcfg : 0 < cfg.long_press_delay)
    (hidle : s.pending = none) (hskip : s.should_skip_key_up = false)
    (hwait : t0 + cfg.long_press_delay ≤ t1) :
    (runRaw cfg s [RawEvent.down t0 p, RawEvent.up t1 q]).2 =
      [DerivedEvent.longPress p] := by
  simp [runRaw, step, fireDue, rawTime, handleKeyDown, handleKeyUp,
    hidle, hskip, hcfg, hwait]

/-- Witness for `long_press_then_suppressed`: delays `(1, 1)`, key-down at 0,
key-up at 2. -/
theorem long_press_then_suppressed_witness :
    (runRaw { long_press_delay := 1, double_press_delay := 1 } initState
      [RawEvent.down 0 7, RawEvent.up 2 8]).2 = [DerivedEvent.longPress 7] :=
  long_press_then_suppressed { long_press_delay := 1, double_press_delay := 1 }
    initState 0 2 7 8 (by norm_num) rfl rfl (by norm_num)

/-- C6: three short presses in quick succession (each key-up within
`long_press_delay` of its key-down, so none is suppressed): the second key-up
falls within `double_press_delay` of the first and yields a double-press, and
the third key-up, within `double_press_delay` of the second, yields another
double-press — the release clock resets on each non-suppressed key-up; no
event is dropped and nothing other than these three events is produced. -/
theorem double_press_clock_resets (cfg : KeyCfg) (s : KeyTimingState)
    (t0 t1 t2 t3 t4 t5 : ℚ) (p0 q1 p2 q3 p4 q5 : Nat)
    (hcfg : 0 < cfg.long_press_delay)
    (hidle : s.pending = none) (hskip : s.should_skip_key_up = false)
    (hfresh : s.last_key_up_time = none)
    (h1 : t1 < t0 + cfg.long_press_delay)
    (h3 : t3 < t2 + cfg.long_press_delay)
    (h5 : t5 < t4 + cfg.long_press_delay)
    (hd1 : t3 - t1 ≤ cfg.double_press_delay)
    (hd2 : t5 - t3 ≤ cfg.double_press_delay) :
    (runRaw cfg s [RawEvent.down t0 p0, RawEvent.up t1 q1, RawEvent.down t2 p2,
        RawEvent.up t3 q3, RawEvent.down t4 p4, RawEvent.up t5 q5]).2 =
      [DerivedEvent.keyUp q1, DerivedEvent.doublePress q3,
        DerivedEvent.doublePress q5] := by
  have hn1 : ¬ (t0 + cfg.long_press_delay ≤ t1) := not_le.mpr h1
  have hn3 : ¬ (t2 + cfg.long_press_delay ≤ t3) := not_le.mpr h3
  have hn5 : ¬ (t4 + cfg.long_press_delay ≤ t5) := not_le.mpr h5
  simp [runRaw, step, fireDue, rawTime, handleKeyDown, handleKeyUp,
    hidle, hskip, hfresh, hcfg, hn1, hn3, hn5, hd1, hd2]

/-- Witness for `double_press_clock_resets`: delays `(10, 4)` and presses at
times 0-5. -/
theorem double_press_clock_resets_witness :
    (runRaw { long_press_delay := 10, double_press_delay := 4 } initState
      [RawEvent.down 0 1, RawEvent.up 1 2, RawEvent.down 2 3, RawEvent.up 3 4,
        RawEvent.down 4 5, RawEvent.up 5 6]).2 =
      [DerivedEvent.keyUp 2, DerivedEvent.doublePress 4,
        DerivedEvent.doublePress 6] :=
  double_press_clock_resets { long_press_delay := 10, double_press_delay := 4 }
    initState 0 1 2 3 4 5 1 2 3 4 5 6 (by norm_num) rfl rfl rfl
    (by norm_num) (by norm_num) (by norm_num) (by norm_num) (by norm_num)

/-- C8: a settings-push event for a registered action merges the payload into
the plugin-level cached settings for the context and pushes the same update
into the owning action's per-context cache: afterwards, for every pushed key,
both the plugin-level view and the action-level view hold the value of the
payload's last write to that key (last-write-wins per key, identical in both
views). -/
theorem settings_push_consistent (ps : List (String × List (String × Json)))
    (reg : List (String × ActionObj)) (action context : String)
    (settings : List (String × Json)) (a : ActionObj) (k : String)
    (ha : lookupA reg action = some a) (hk : k ∈ settings.map Prod.fst) :
    ∃ reg2 a2,
      (on_did_receive_settings ps reg action context settings).2 = some reg2 ∧
      lookupA reg2 action = some a2 ∧
      lookupA ((lookupA (on_did_receive_settings ps reg action context
        settings).1 context).getD []) k = lastWrite settings k ∧
      lookupA ((lookupA a2.settings context).getD []) k =
        lastWrite settings k := by
  have hrun : on_did_receive_settings ps reg action context settings =
      (dictInsert ps context
        (dictUpdate ((lookupA ps context).getD []) settings),
       some (dictInsert reg action
        { a with settings := (dictInsert a.settings context
            (dictUpdate ((lookupA a.settings context).getD []) settings)) })) := by
    simp [on_did_receive_settings, ha]
  refine ⟨_, _, by rw [hrun], lookupA_dictInsert_self reg action _, ?_, ?_⟩
  · rw [hrun]
    simp only [lookupA_dictInsert_self, Option.getD_some]
    exact lookupA_dictUpdate_mem settings _ k hk
  · simp only [lookupA_dictInsert_self, Option.getD_some]
    exact lookupA_dictUpdate_mem settings _ k hk

/-- Witness for `settings_push_consistent`: one registered action, one pushed
key. -/
theorem settings_push_consistent_witness :
    ∃ reg2 a2,
      (on_did_receive_settings [] [("com.example.a", dupA)] "com.example.a"
        "ctx1" [("x", Json.num 1)]).2 = some reg2 ∧
      lookupA reg2 "com.example.a" = some a2 ∧
      lookupA ((lookupA (on_did_receive_settings [] [("com.example.a", dupA)]
        "com.example.a" "ctx1" [("x", Json.num 1)]).1 "ctx1").getD []) "x" =
        lastWrite [("x", Json.num 1)] "x" ∧
      lookupA ((lookupA a2.settings "ctx1").getD []) "x" =
        lastWrite [("x", Json.num 1)] "x" :=
  settings_push_consistent [] [("com.example.a", dupA)] "com.example.a" "ctx1"
    [("x", Json.num 1)] dupA "x" rfl (by simp)

/-- C1 counterexample: delays `(2, 1)`; a key-down at 0 whose long press fires
at 2, then the suppressed key-up at 3 — contrary to the claim,
`lastReleaseTimestamp` is NOT updated by the suppressed key-up (it stays
unset), and a second key-up at 4, within `double_press_delay` of the
suppressed one, does NOT resolve to a double-press (it resolves to an
ordinary key-up). -/
theorem suppressed_keyup_counterexample :
    ¬ ((runRaw { long_press_delay := 2, double_press_delay := 1 } initState
          [RawEvent.down 0 10, RawEvent.up 3 11]).1.last_key_up_time = some 3 ∧
       DerivedEvent.doublePress 13 ∈
         (runRaw { long_press_delay := 2, double_press_delay := 1 } initState
           [RawEvent.down 0 10, RawEvent.up 3 11, RawEvent.down 3 12,
             RawEvent.up 4 13]).2) := by
  intro h
  have h1 := h.1
  rw [show (runRaw { long_press_delay := 2, double_press_delay := 1 } initState
      [RawEvent.down 0 10, RawEvent.up 3 11]).1.last_key_up_time = none from by
    norm_num [runRaw, step, fireDue, rawTime, handleKeyDown, handleKeyUp,
      initState]] at h1
  exact Option.noConfusion h1

/-- C1 amended: for every context and every key-up that is processed without
raising, `lastReleaseTimestamp` is updated to the current time by the
classification decision exactly when the key-up is not suppressed — also when
a double-press fires — while a key-up suppressed as the tail of a long press
leaves `lastReleaseTimestamp` unchanged (so a suppressed key-up opens no
double-press window by itself). -/
theorem last_release_update (cfg : KeyCfg) (s : KeyTimingState) (t : ℚ)
    (p : Nat) (s2 : KeyTimingState) (evs : List DerivedEvent)
    (h : handleKeyUp cfg s t p = some (s2, evs)) :
    s2.last_key_up_time =
      if s.should_skip_key_up then s.last_key_up_time else some t := by
  rw [handleKeyUp] at h
  by_cases hd : s.down_entry = true
  · rw [if_pos hd] at h
    by_cases hskip : s.should_skip_key_up = true
    · rw [if_pos hskip] at h
      simp only [Option.some.injEq, Prod.mk.injEq] at h
      rw [← h.1, hskip, if_pos rfl]
    · rw [if_neg hskip] at h
      rw [if_neg hskip]
      split at h <;>
        · simp only [Option.some.injEq, Prod.mk.injEq] at h
          rw [← h.1]
  · rw [if_neg hd] at h
    exact Option.noConfusion h

/-- Witness for `last_release_update`: a suppressed key-up leaves the (unset)
release timestamp unchanged. -/
theorem last_release_update_witness :
    (({ down_entry := true, pending := none, last_key_up_time := none,
        should_skip_key_up := false } : KeyTimingState)).last_key_up_time =
      if ({ down_entry := true, pending := none, last_key_up_time := none,
            should_skip_key_up := true } : KeyTimingState).should_skip_key_up
      then ({ down_entry := true, pending := none, last_key_up_time := none,
              should_skip_key_up := true } : KeyTimingState).last_key_up_time
      else some 5 :=
  last_release_update { long_press_delay := 2, double_press_delay := 1 }
    { down_entry := true, pending := none, last_key_up_time := none,
      should_skip_key_up := true } 5 3
    { down_entry := true, pending := none, last_key_up_time := none,
      should_skip_key_up := false } [] rfl

end StreamdeckSdk
